import Mathlib

/-!
Shallow embedding of the socket-server-mocker connection-driving engines
(`src/tcp_server.rs`, `src/udp_server.rs`) and the error/fatality model
(`src/server_mocker/server_mocker_error.rs`).

Network I/O is modelled by oracles: a list of read/recv outcomes and a list
of write/send outcomes consumed in order by the worker.  An exhausted oracle
makes the run undefined (`Option.none`); every theorem about a run either
needs no oracle events past the point it talks about, or assumes the oracle
is long enough.
-/

namespace SocketServerMocker

/-- Binary message: an opaque byte sequence (`Vec<u8>` in the source). -/
abbrev Msg := List Nat

/-- Opaque token standing for a `std::io::Error` value. -/
abbrev IOE := Nat

/-- Opaque token standing for a `std::net::SocketAddr` value. -/
abbrev Addr := Nat

/-- Embedding of `enum Instruction` (the instruction variants matched by both
worker loops).  The closure payload of
`SendMessageDependingOnLastReceivedMessage` is kept as a Lean function. -/
inductive Instruction where
  | SendMessage (m : Msg)
  | SendMessageDependingOnLastReceivedMessage (f : Option Msg → Option Msg)
  | ReceiveMessage
  | ReceiveMessageWithMaxSize (n : Nat)
  | StopExchange

/-- Embedding of `enum ServerMockerError`
(src/server_mocker/server_mocker_error.rs, lines 20-43): ten variants, with
the `io::Error` / address payloads kept as opaque tokens and the
`SendError<Vec<Instruction>>` payload kept as the dropped instruction list. -/
inductive ServerMockerError where
  | UnableToBindListener (addr : Addr) (e : IOE)
  | UnableToGetLocalAddress (e : IOE)
  | UnableToAcceptConnection (addr : Addr) (e : IOE)
  | UnableToSendInstructions (dropped : List Instruction)
  | UnableToSetReadTimeout (e : IOE)
  | UnableToReadTcpStream (e : IOE)
  | UnableToWriteTcpStream (e : IOE)
  | UnableToReadUdpStream (e : IOE)
  | GotSendMessageBeforeReceiveMessage
  | FailedToSendUdpMessage (e : IOE)

/-- Embedding of `ServerMockerError::is_fatal`
(src/server_mocker/server_mocker_error.rs, lines 47-61): the source matches
the four setup variants to `true` and the six others to `false`. -/
def ServerMockerError.is_fatal : ServerMockerError → Bool
  | .UnableToBindListener _ _ => true
  | .UnableToGetLocalAddress _ => true
  | .UnableToAcceptConnection _ _ => true
  | .UnableToSetReadTimeout _ => true
  | .UnableToSendInstructions _ => false
  | .UnableToReadTcpStream _ => false
  | .UnableToWriteTcpStream _ => false
  | .UnableToReadUdpStream _ => false
  | .GotSendMessageBeforeReceiveMessage => false
  | .FailedToSendUdpMessage _ => false

/-- Embedding of `ServerMockerError::fatal_str`
(src/server_mocker/server_mocker_error.rs, lines 63-69). -/
def ServerMockerError.fatal_str (e : ServerMockerError) : String :=
  if e.is_fatal then "Fatal" else "Non fatal"

/-! ## TCP engine (src/tcp_server.rs, `TcpServerImpl`) -/

/-- Outcome of one `stream.read(&mut buffer)` call: either a chunk of bytes
written into the buffer (its length is at most the buffer size in any real
execution) or an `io::Error`. -/
inductive ReadEvent where
  | chunk (c : Msg)
  | fail (e : IOE)

/-- Outcome of one `stream.write_all(packet)` call: `none` is success,
`some e` is an `io::Error`. -/
abbrev WriteEvent := Option IOE

/-- Embedding of `TcpServerImpl::read_packet` (src/tcp_server.rs, lines
232-248): read repeatedly, appending each chunk to the accumulated packet,
and stop after the first read that returns fewer than `B` bytes (`B` is
`options.reader_buffer_size`).  A read error aborts the whole call with
`UnableToReadTcpStream`, discarding the accumulated bytes.  Returns the
result together with the unconsumed oracle; `none` when the oracle runs out
before the loop exits. -/
def read_packet (B : Nat) :
    List ReadEvent → Option (Except ServerMockerError Msg × List ReadEvent)
  | [] => none
  | ReadEvent.fail e :: rest =>
    some (Except.error (ServerMockerError.UnableToReadTcpStream e), rest)
  | ReadEvent.chunk c :: rest =>
    if c.length < B then
      some (Except.ok c, rest)
    else
      match read_packet B rest with
      | none => none
      | some (Except.error err, rest2) => some (Except.error err, rest2)
      | some (Except.ok p, rest2) => some (Except.ok (c ++ p), rest2)

/-- Embedding of `TcpServerImpl::send_packet` (src/tcp_server.rs, lines
250-254): one `write_all`, whose failure becomes `UnableToWriteTcpStream`. -/
def send_packet :
    List WriteEvent → Option (Except ServerMockerError Unit × List WriteEvent)
  | [] => none
  | none :: rest => some (Except.ok (), rest)
  | some e :: rest =>
    some (Except.error (ServerMockerError.UnableToWriteTcpStream e), rest)

/-- State of the TCP worker: the `last_received_message` local of
`handle_connection`, the two I/O oracles, and the observable outputs —
messages sent on `message_tx`, errors sent on `error_tx`, and the byte
payloads successfully written to the wire, each in emission order. -/
structure TcpState where
  last_received_message : Option Msg
  reads : List ReadEvent
  writes : List WriteEvent
  msgs : List Msg
  errs : List ServerMockerError
  sent : List Msg

/-- One iteration of the `for instruction in instructions` match of
`TcpServerImpl::handle_connection` (src/tcp_server.rs, lines 186-227).
Returns the updated state and whether the worker returned (`StopExchange`). -/
def tcpExec (B : Nat) (i : Instruction) (s : TcpState) : Option (TcpState × Bool) :=
  match i with
  | .SendMessage m =>
    match send_packet s.writes with
    | none => none
    | some (Except.ok _, ws) =>
      some ({ s with writes := ws, sent := s.sent ++ [m] }, false)
    | some (Except.error e, ws) =>
      some ({ s with writes := ws, errs := s.errs ++ [e] }, false)
  | .SendMessageDependingOnLastReceivedMessage f =>
    match f s.last_received_message with
    | none => some (s, false)
    | some m =>
      match send_packet s.writes with
      | none => none
      | some (Except.ok _, ws) =>
        some ({ s with writes := ws, sent := s.sent ++ [m] }, false)
      | some (Except.error e, ws) =>
        some ({ s with writes := ws, errs := s.errs ++ [e] }, false)
  | .ReceiveMessage =>
    match read_packet B s.reads with
    | none => none
    | some (Except.ok p, rs) =>
      some ({ s with
              reads := rs
              last_received_message := some p
              msgs := s.msgs ++ [p] }, false)
    | some (Except.error e, rs) =>
      some ({ s with reads := rs, errs := s.errs ++ [e] }, false)
  | .ReceiveMessageWithMaxSize n =>
    match read_packet B s.reads with
    | none => none
    | some (Except.ok p, rs) =>
      some ({ s with
              reads := rs
              last_received_message := some (p.take n)
              msgs := s.msgs ++ [p.take n] }, false)
    | some (Except.error e, rs) =>
      some ({ s with reads := rs, errs := s.errs ++ [e] }, false)
  | .StopExchange => some (s, true)

/-- The inner `for` loop of `TcpServerImpl::handle_connection` over one
instruction batch; `true` means the worker returned via `StopExchange`. -/
def tcpRunBatch (B : Nat) : List Instruction → TcpState → Option (TcpState × Bool)
  | [], s => some (s, false)
  | i :: is, s =>
    match tcpExec B i s with
    | none => none
    | some (s', true) => some (s', true)
    | some (s', false) => tcpRunBatch B is s'

/-- The outer `while let Ok(instructions) = instruction_rx.recv_timeout(..)`
loop of `TcpServerImpl::handle_connection`: the instruction channel is
modelled as the list of batches it will yield before timing out. -/
def tcpRunBatches (B : Nat) : List (List Instruction) → TcpState → Option (TcpState × Bool)
  | [], s => some (s, false)
  | b :: bs, s =>
    match tcpRunBatch B b s with
    | none => none
    | some (s', true) => some (s', true)
    | some (s', false) => tcpRunBatches B bs s'

/-- Initial TCP worker state: no message received yet, nothing emitted. -/
def tcpInit (reads : List ReadEvent) (writes : List WriteEvent) : TcpState :=
  { last_received_message := none, reads := reads, writes := writes,
    msgs := [], errs := [], sent := [] }

/-- Embedding of `TcpServerImpl::handle_connection` (src/tcp_server.rs, lines
175-229): first `set_read_timeout` (whose outcome is the `setRT` oracle —
`some e` is failure); on failure report `UnableToSetReadTimeout` and return,
otherwise run the instruction loop. -/
def handle_connection (B : Nat) (setRT : Option IOE)
    (batches : List (List Instruction))
    (reads : List ReadEvent) (writes : List WriteEvent) : Option (TcpState × Bool) :=
  match setRT with
  | some e =>
    some ({ tcpInit reads writes with
            errs := [ServerMockerError.UnableToSetReadTimeout e] }, false)
  | none => tcpRunBatches B batches (tcpInit reads writes)

/-! ## UDP engine (src/udp_server.rs, `UdpServerImpl`) -/

/-- Outcome of one `connection.recv_from(&mut buffer)` call: either a
datagram (sender address and full payload) or an `io::Error`. -/
inductive RecvEvent where
  | dgram (addr : Addr) (data : Msg)
  | fail (e : IOE)

/-- Outcome of one `connection.send_to(..)` call: `none` is success,
`some e` is an `io::Error`. -/
abbrev SendEvent := Option IOE

/-- Embedding of `UdpServerImpl::receive_packet` (src/udp_server.rs, lines
244-259): `recv_from` into a buffer of `max_packet_size` bytes — so at most
that many bytes of the datagram are kept — then truncate the buffer to the
bytes actually read. -/
def receive_packet (max_packet_size : Nat) :
    List RecvEvent → Option (Except ServerMockerError (Addr × Msg) × List RecvEvent)
  | [] => none
  | RecvEvent.fail e :: rest =>
    some (Except.error (ServerMockerError.UnableToReadUdpStream e), rest)
  | RecvEvent.dgram a d :: rest =>
    some (Except.ok (a, d.take max_packet_size), rest)

/-- Embedding of `UdpServerImpl::send_packet_to_last_client`
(src/udp_server.rs, lines 261-278): with no last received packet the call
fails with `GotSendMessageBeforeReceiveMessage` before touching the socket
(the send oracle is not consumed); otherwise one `send_to` to the stored
address, whose failure becomes `FailedToSendUdpMessage`.  On success the
destination address is returned. -/
def send_packet_to_last_client (last : Option (Addr × Msg)) (sends : List SendEvent) :
    Option (Except ServerMockerError Addr × List SendEvent) :=
  match last with
  | none => some (Except.error ServerMockerError.GotSendMessageBeforeReceiveMessage, sends)
  | some (a, _) =>
    match sends with
    | [] => none
    | none :: rest => some (Except.ok a, rest)
    | some e :: rest =>
      some (Except.error (ServerMockerError.FailedToSendUdpMessage e), rest)

/-- State of the UDP worker: the `last_received_packed_with_addr` local of
`handle_dgram_stream`, the two I/O oracles, and the observable outputs
(messages forwarded to the controller, reported errors, datagrams
successfully transmitted with their destination). -/
structure UdpState where
  last_received_packed_with_addr : Option (Addr × Msg)
  recvs : List RecvEvent
  sends : List SendEvent
  msgs : List Msg
  errs : List ServerMockerError
  sent : List (Addr × Msg)

/-- One iteration of the instruction match of
`UdpServerImpl::handle_dgram_stream` (src/udp_server.rs, lines 184-240). -/
def udpExec (max_packet_size : Nat) (i : Instruction) (s : UdpState) :
    Option (UdpState × Bool) :=
  match i with
  | .SendMessage m =>
    match send_packet_to_last_client s.last_received_packed_with_addr s.sends with
    | none => none
    | some (Except.ok a, ss) =>
      some ({ s with sends := ss, sent := s.sent ++ [(a, m)] }, false)
    | some (Except.error e, ss) =>
      some ({ s with sends := ss, errs := s.errs ++ [e] }, false)
  | .SendMessageDependingOnLastReceivedMessage f =>
    match f (match s.last_received_packed_with_addr with
             | some (_, msg) => some msg
             | none => none) with
    | none => some (s, false)
    | some m =>
      match send_packet_to_last_client s.last_received_packed_with_addr s.sends with
      | none => none
      | some (Except.ok a, ss) =>
        some ({ s with sends := ss, sent := s.sent ++ [(a, m)] }, false)
      | some (Except.error e, ss) =>
        some ({ s with sends := ss, errs := s.errs ++ [e] }, false)
  | .ReceiveMessage =>
    match receive_packet max_packet_size s.recvs with
    | none => none
    | some (Except.ok (a, d), rs) =>
      some ({ s with
              recvs := rs
              last_received_packed_with_addr := some (a, d)
              msgs := s.msgs ++ [d] }, false)
    | some (Except.error e, rs) =>
      some ({ s with recvs := rs, errs := s.errs ++ [e] }, false)
  | .ReceiveMessageWithMaxSize n =>
    match receive_packet n s.recvs with
    | none => none
    | some (Except.ok (a, d), rs) =>
      some ({ s with
              recvs := rs
              last_received_packed_with_addr := some (a, d)
              msgs := s.msgs ++ [d] }, false)
    | some (Except.error e, rs) =>
      some ({ s with recvs := rs, errs := s.errs ++ [e] }, false)
  | .StopExchange => some (s, true)

/-- The inner `for` loop of `UdpServerImpl::handle_dgram_stream` over one
instruction batch. -/
def udpRunBatch (M : Nat) : List Instruction → UdpState → Option (UdpState × Bool)
  | [], s => some (s, false)
  | i :: is, s =>
    match udpExec M i s with
    | none => none
    | some (s', true) => some (s', true)
    | some (s', false) => udpRunBatch M is s'

/-- The outer `while let Ok(instructions) = instruction_rx.recv_timeout(..)`
loop of `UdpServerImpl::handle_dgram_stream`. -/
def udpRunBatches (M : Nat) : List (List Instruction) → UdpState → Option (UdpState × Bool)
  | [], s => some (s, false)
  | b :: bs, s =>
    match udpRunBatch M b s with
    | none => none
    | some (s', true) => some (s', true)
    | some (s', false) => udpRunBatches M bs s'

/-- Initial UDP worker state. -/
def udpInit (recvs : List RecvEvent) (sends : List SendEvent) : UdpState :=
  { last_received_packed_with_addr := none, recvs := recvs, sends := sends,
    msgs := [], errs := [], sent := [] }

/-- Embedding of `UdpServerImpl::handle_dgram_stream` (src/udp_server.rs,
lines 171-242): `set_read_timeout` first (`setRT = some e` is failure,
reported as `UnableToSetReadTimeout` followed by an immediate return),
then the instruction loop. -/
def handle_dgram_stream (M : Nat) (setRT : Option IOE)
    (batches : List (List Instruction))
    (recvs : List RecvEvent) (sends : List SendEvent) : Option (UdpState × Bool) :=
  match setRT with
  | some e =>
    some ({ udpInit recvs sends with
            errs := [ServerMockerError.UnableToSetReadTimeout e] }, false)
  | none => udpRunBatches M batches (udpInit recvs sends)

/-! ## Theorems -/

/-- Claim C2: `is_fatal` returns `true` exactly for the four setup-time error
variants (bind failure, local-address lookup failure, accept failure,
set-read-timeout failure) and `false` for every other variant; since
`is_fatal` is a total boolean function, every error value carries exactly one
of the two fatality categories. -/
theorem is_fatal_characterisation (e : ServerMockerError) :
    (e.is_fatal = true ↔
      ((∃ a i, e = ServerMockerError.UnableToBindListener a i) ∨
       (∃ i, e = ServerMockerError.UnableToGetLocalAddress i) ∨
       (∃ a i, e = ServerMockerError.UnableToAcceptConnection a i) ∨
       (∃ i, e = ServerMockerError.UnableToSetReadTimeout i))) ∧
    (e.is_fatal = false ↔
      ((∃ l, e = ServerMockerError.UnableToSendInstructions l) ∨
       (∃ i, e = ServerMockerError.UnableToReadTcpStream i) ∨
       (∃ i, e = ServerMockerError.UnableToWriteTcpStream i) ∨
       (∃ i, e = ServerMockerError.UnableToReadUdpStream i) ∨
       e = ServerMockerError.GotSendMessageBeforeReceiveMessage ∨
       (∃ i, e = ServerMockerError.FailedToSendUdpMessage i))) := by
  cases e <;> simp [ServerMockerError.is_fatal]

/-- Claim C8: when the instruction channel yields no further batch before the
starvation timeout (the batch oracle is exhausted) and no `StopExchange` has
fired, both worker loops terminate returning the state unchanged and without
the stop flag: no error and no message is emitted by this termination path. -/
theorem starvation_timeout_silent (B M : Nat) (s : TcpState) (u : UdpState) :
    tcpRunBatches B [] s = some (s, false) ∧ udpRunBatches M [] u = some (u, false) :=
  ⟨rfl, rfl⟩

/-- Claim C9: if `set_read_timeout` fails at worker start, each worker reports
exactly one error — `UnableToSetReadTimeout`, which is fatal — and returns at
once: the result is independent of the submitted batches, and its message,
wire and error outputs are exactly those of the untouched initial state. -/
theorem fatal_set_read_timeout (B M : Nat) (e : IOE)
    (batches batches' : List (List Instruction))
    (reads : List ReadEvent) (writes : List WriteEvent)
    (recvs : List RecvEvent) (sends : List SendEvent) :
    handle_connection B (some e) batches reads writes =
      some ({ tcpInit reads writes with
              errs := [ServerMockerError.UnableToSetReadTimeout e] }, false) ∧
    handle_connection B (some e) batches reads writes =
      handle_connection B (some e) batches' reads writes ∧
    handle_dgram_stream M (some e) batches recvs sends =
      some ({ udpInit recvs sends with
              errs := [ServerMockerError.UnableToSetReadTimeout e] }, false) ∧
    handle_dgram_stream M (some e) batches recvs sends =
      handle_dgram_stream M (some e) batches' recvs sends ∧
    (ServerMockerError.UnableToSetReadTimeout e).is_fatal = true :=
  ⟨rfl, rfl, rfl, rfl, rfl⟩

/-- Claim C3: for a fixed buffer size `B`, a run of reads delivering the
chunks `full ++ [last]` — every chunk of `full` of exactly `B` bytes, the
final chunk of strictly fewer — makes `read_packet` return the concatenation
of all delivered chunks in read order, consuming exactly those reads: the
first strictly-short read ends the loop and any later oracle events (`extra`)
are left untouched, while every exactly-`B`-byte read caused another read. -/
theorem read_packet_accumulates_until_short_read (B : Nat) (full : List Msg)
    (last : Msg) (extra : List ReadEvent)
    (hfull : ∀ c ∈ full, c.length = B) (hlast : last.length < B) :
    read_packet B ((full ++ [last]).map ReadEvent.chunk ++ extra) =
      some (Except.ok (full ++ [last]).flatten, extra) := by
  induction full with
  | nil => simp [read_packet, hlast]
  | cons c cs ih =>
    have hc : c.length = B := hfull c (by simp)
    have ih' := ih (fun x hx => hfull x (by simp [hx]))
    simp only [List.map_append, List.map_cons, List.map_nil, List.append_assoc,
      List.cons_append, List.nil_append] at ih'
    simp [read_packet, hc, ih']

/-- Claim C3 witness: two reads, a full 2-byte chunk then a 1-byte chunk,
yield the 3-byte concatenation and leave the rest of the oracle alone. -/
theorem read_packet_accumulates_until_short_read_witness :
    (∀ c ∈ [[1, 2]], List.length c = 2) ∧ List.length [3] < 2 ∧
    read_packet 2 (([[1, 2]] ++ [[3]]).map ReadEvent.chunk ++ [ReadEvent.fail 0]) =
      some (Except.ok ([[1, 2]] ++ [[3]]).flatten, [ReadEvent.fail 0]) :=
  ⟨by decide, by decide,
    read_packet_accumulates_until_short_read 2 [[1, 2]] [3] [ReadEvent.fail 0]
      (by decide) (by decide)⟩

/-- Every error produced by `read_packet` is an `UnableToReadTcpStream`
wrapper around the failing read's `io::Error`. -/
theorem read_packet_error_shape (B : Nat) (rs rest : List ReadEvent)
    (err : ServerMockerError)
    (h : read_packet B rs = some (Except.error err, rest)) :
    ∃ e, err = ServerMockerError.UnableToReadTcpStream e := by
  induction rs generalizing rest with
  | nil => simp [read_packet] at h
  | cons ev tl ih =>
    cases ev with
    | fail e =>
      simp only [read_packet, Option.some.injEq, Prod.mk.injEq, Except.error.injEq] at h
      exact ⟨e, h.1.symm⟩
    | chunk c =>
      by_cases hc : c.length < B
      · simp [read_packet, hc] at h
      · simp only [read_packet, if_neg hc] at h
        cases h2 : read_packet B tl with
        | none => rw [h2] at h; simp at h
        | some r =>
          obtain ⟨res, rest2⟩ := r
          cases res with
          | error e2 =>
            rw [h2] at h
            simp only [Option.some.injEq, Prod.mk.injEq, Except.error.injEq] at h
            obtain ⟨he, hr⟩ := h
            subst he
            exact ih rest2 h2
          | ok p =>
            rw [h2] at h
            simp at h

/-- Claim C4: executing `ReceiveMessageWithMaxSize n` records as last-received
and forwards to the controller exactly the first `min n (length m)` bytes
(`List.take n m`) of the inbound message `m` — for TCP, `m` is the packet
assembled by `read_packet`; for UDP, `m` is the incoming datagram's payload.
In particular a message longer than `n` is truncated to its first `n` bytes. -/
theorem receive_with_max_size_truncates (B M n : Nat) (m : Msg)
    (rest : List ReadEvent) (s : TcpState)
    (hs : read_packet B s.reads = some (Except.ok m, rest))
    (a : Addr) (d : Msg) (rest2 : List RecvEvent) (u : UdpState)
    (hu : u.recvs = RecvEvent.dgram a d :: rest2) :
    (tcpExec B (Instruction.ReceiveMessageWithMaxSize n) s =
      some ({ s with
              reads := rest
              last_received_message := some (m.take n)
              msgs := s.msgs ++ [m.take n] }, false) ∧
     (m.take n).length = min n m.length) ∧
    (udpExec M (Instruction.ReceiveMessageWithMaxSize n) u =
      some ({ u with
              recvs := rest2
              last_received_packed_with_addr := some (a, d.take n)
              msgs := u.msgs ++ [d.take n] }, false) ∧
     (d.take n).length = min n d.length) := by
  refine ⟨⟨?_, ?_⟩, ?_, ?_⟩
  · simp [tcpExec, hs]
  · simp
  · simp [udpExec, receive_packet, hu]
  · simp

/-- Claim C4 witness: a 3-byte TCP packet and a 3-byte UDP datagram, each
received with max size 2, are recorded and forwarded truncated to 2 bytes. -/
theorem receive_with_max_size_truncates_witness :
    read_packet 4 (tcpInit [ReadEvent.chunk [1, 2, 3]] []).reads =
      some (Except.ok [1, 2, 3], []) ∧
    (udpInit [RecvEvent.dgram 7 [5, 6, 8]] []).recvs =
      RecvEvent.dgram 7 [5, 6, 8] :: [] ∧
    tcpExec 4 (Instruction.ReceiveMessageWithMaxSize 2)
        (tcpInit [ReadEvent.chunk [1, 2, 3]] []) =
      some ({ last_received_message := some [1, 2], reads := [], writes := [],
              msgs := [[1, 2]], errs := [], sent := [] }, false) := by
  have h1 : read_packet 4 (tcpInit [ReadEvent.chunk [1, 2, 3]] []).reads =
      some (Except.ok [1, 2, 3], []) := by
    simp [tcpInit, read_packet]
  have h := (receive_with_max_size_truncates 4 3 2 [1, 2, 3] []
      (tcpInit [ReadEvent.chunk [1, 2, 3]] []) h1
      7 [5, 6, 8] [] (udpInit [RecvEvent.dgram 7 [5, 6, 8]] []) rfl).1.1
  refine ⟨h1, rfl, ?_⟩
  simpa [tcpInit] using h

/-- Claim C5: on the UDP engine, `SendMessage` (and
`SendMessageDependingOnLastReceivedMessage` whose closure returns a value)
with no message ever received reports exactly one
`GotSendMessageBeforeReceiveMessage` error — which is non-fatal — transmits
no datagram (the send oracle and the transmitted-datagram log are untouched),
and continues with the next instruction (stop flag `false`). -/
theorem udp_send_before_receive (M : Nat) (m m2 : Msg)
    (f : Option Msg → Option Msg) (u : UdpState)
    (hlast : u.last_received_packed_with_addr = none)
    (hf : f none = some m2) :
    udpExec M (Instruction.SendMessage m) u =
      some ({ u with
              errs := u.errs ++
                [ServerMockerError.GotSendMessageBeforeReceiveMessage] }, false) ∧
    udpExec M (Instruction.SendMessageDependingOnLastReceivedMessage f) u =
      some ({ u with
              errs := u.errs ++
                [ServerMockerError.GotSendMessageBeforeReceiveMessage] }, false) ∧
    ServerMockerError.is_fatal ServerMockerError.GotSendMessageBeforeReceiveMessage =
      false := by
  refine ⟨?_, ?_, rfl⟩
  · simp [udpExec, send_packet_to_last_client, hlast]
  · simp [udpExec, send_packet_to_last_client, hlast, hf]

/-- Claim C5 witness: a fresh UDP worker state given `SendMessage [9]` and a
constant closure reports the ordering error and transmits nothing. -/
theorem udp_send_before_receive_witness :
    (udpInit [] [Option.none]).last_received_packed_with_addr = none ∧
    udpExec 1 (Instruction.SendMessage [9]) (udpInit [] [Option.none]) =
      some ({ last_received_packed_with_addr := none, recvs := [],
              sends := [Option.none], msgs := [],
              errs := [ServerMockerError.GotSendMessageBeforeReceiveMessage],
              sent := [] }, false) := by
  have h := (udp_send_before_receive 1 [9] [4] (fun _ => some [4])
      (udpInit [] [Option.none]) rfl rfl).1
  refine ⟨rfl, ?_⟩
  simpa [udpInit] using h

/-- Claim C6: a failing read under `ReceiveMessage` or
`ReceiveMessageWithMaxSize` makes each engine report exactly one error —
always non-fatal — while the last-received state, the forwarded-message log
and the wire log stay exactly as they were, and execution proceeds to the
next instruction (stop flag `false`). -/
theorem receive_error_frame (B M n : Nat) (s : TcpState)
    (err : ServerMockerError) (rest : List ReadEvent)
    (hs : read_packet B s.reads = some (Except.error err, rest))
    (u : UdpState) (e2 : IOE) (rest2 : List RecvEvent)
    (hu : u.recvs = RecvEvent.fail e2 :: rest2) :
    tcpExec B Instruction.ReceiveMessage s =
      some ({ s with reads := rest, errs := s.errs ++ [err] }, false) ∧
    tcpExec B (Instruction.ReceiveMessageWithMaxSize n) s =
      some ({ s with reads := rest, errs := s.errs ++ [err] }, false) ∧
    ServerMockerError.is_fatal err = false ∧
    udpExec M Instruction.ReceiveMessage u =
      some ({ u with
              recvs := rest2
              errs := u.errs ++ [ServerMockerError.UnableToReadUdpStream e2] },
        false) ∧
    udpExec M (Instruction.ReceiveMessageWithMaxSize n) u =
      some ({ u with
              recvs := rest2
              errs := u.errs ++ [ServerMockerError.UnableToReadUdpStream e2] },
        false) ∧
    ServerMockerError.is_fatal (ServerMockerError.UnableToReadUdpStream e2) =
      false := by
  obtain ⟨e0, he0⟩ := read_packet_error_shape B s.reads rest err hs
  refine ⟨by simp [tcpExec, hs], by simp [tcpExec, hs],
    by simp [he0, ServerMockerError.is_fatal],
    by simp [udpExec, receive_packet, hu],
    by simp [udpExec, receive_packet, hu], rfl⟩

/-- Claim C6 witness: a TCP read error and a UDP recv error during
`ReceiveMessage`, on states that already hold a last-received message, report
one non-fatal error each and leave that message in place. -/
theorem receive_error_frame_witness :
    read_packet 4 [ReadEvent.fail 3] =
      some (Except.error (ServerMockerError.UnableToReadTcpStream 3), []) ∧
    tcpExec 4 Instruction.ReceiveMessage
        { tcpInit [ReadEvent.fail 3] [] with last_received_message := some [7] } =
      some ({ last_received_message := some [7], reads := [], writes := [],
              msgs := [],
              errs := [ServerMockerError.UnableToReadTcpStream 3],
              sent := [] }, false) ∧
    udpExec 9 Instruction.ReceiveMessage (udpInit [RecvEvent.fail 5] []) =
      some ({ last_received_packed_with_addr := none, recvs := [], sends := [],
              msgs := [],
              errs := [ServerMockerError.UnableToReadUdpStream 5],
              sent := [] }, false) := by
  have h := receive_error_frame 4 9 1
      { tcpInit [ReadEvent.fail 3] [] with last_received_message := some [7] }
      (ServerMockerError.UnableToReadTcpStream 3) [] (by simp [tcpInit, read_packet])
      (udpInit [RecvEvent.fail 5] []) 5 [] rfl
  refine ⟨by simp [read_packet], ?_, ?_⟩
  · have h1 := h.1
    simpa [tcpInit] using h1
  · have h4 := h.2.2.2.1
    simpa [udpInit] using h4

/-- Claim C10: when the first TCP read of a `ReceiveMessage` returns zero
bytes (peer closed or nothing sent) and the buffer size is positive, the
instruction succeeds: `read_packet` returns the empty byte sequence after
that single read, the empty message replaces any previous last-received
message, it is forwarded to the controller, and no error is reported. -/
theorem tcp_zero_read_empty_message (B : Nat) (hB : 0 < B) (s : TcpState)
    (rest : List ReadEvent) (hs : s.reads = ReadEvent.chunk [] :: rest) :
    read_packet B s.reads = some (Except.ok [], rest) ∧
    tcpExec B Instruction.ReceiveMessage s =
      some ({ s with
              reads := rest
              last_received_message := some []
              msgs := s.msgs ++ [[]] }, false) := by
  have h1 : read_packet B s.reads = some (Except.ok [], rest) := by
    simp [hs, read_packet, hB]
  exact ⟨h1, by simp [tcpExec, h1]⟩

/-- Claim C10 witness: a zero-byte read on a state with a previous
last-received message yields the empty message, replacing it. -/
theorem tcp_zero_read_empty_message_witness :
    0 < 1024 ∧
    tcpExec 1024 Instruction.ReceiveMessage
        { tcpInit [ReadEvent.chunk []] [] with last_received_message := some [9] } =
      some ({ last_received_message := some [], reads := [], writes := [],
              msgs := [[]], errs := [], sent := [] }, false) := by
  have h := (tcp_zero_read_empty_message 1024 (by decide)
      { tcpInit [ReadEvent.chunk []] [] with last_received_message := some [9] }
      [] (by simp [tcpInit])).2
  exact ⟨by decide, by simpa [tcpInit] using h⟩

/-- The view of the last-received state passed to the UDP closure: the
message component, `none` when nothing has been received. -/
theorem udp_last_message_view (u : UdpState) :
    (match u.last_received_packed_with_addr with
     | some (_, msg) => some msg
     | none => none) = u.last_received_packed_with_addr.map Prod.snd := by
  cases h : u.last_received_packed_with_addr with
  | none => rfl
  | some p => cases p; rfl

/-- TCP `SendMessage` never changes the last-received message. -/
theorem tcp_send_preserves_last (B : Nat) (m : Msg) (s s' : TcpState) (stop : Bool)
    (h : tcpExec B (Instruction.SendMessage m) s = some (s', stop)) :
    s'.last_received_message = s.last_received_message := by
  simp only [tcpExec] at h
  cases hsp : send_packet s.writes with
  | none => rw [hsp] at h; simp at h
  | some r =>
    obtain ⟨res, ws⟩ := r
    cases res with
    | ok v => rw [hsp] at h; simp at h; rw [← h.1]
    | error e => rw [hsp] at h; simp at h; rw [← h.1]

/-- TCP `SendMessageDependingOnLastReceivedMessage` never changes the
last-received message. -/
theorem tcp_send_depending_preserves_last (B : Nat)
    (f : Option Msg → Option Msg) (s s' : TcpState) (stop : Bool)
    (h : tcpExec B (Instruction.SendMessageDependingOnLastReceivedMessage f) s =
      some (s', stop)) :
    s'.last_received_message = s.last_received_message := by
  simp only [tcpExec] at h
  cases hf : f s.last_received_message with
  | none => rw [hf] at h; simp at h; rw [← h.1]
  | some m =>
    rw [hf] at h
    cases hsp : send_packet s.writes with
    | none => rw [hsp] at h; simp at h
    | some r =>
      obtain ⟨res, ws⟩ := r
      cases res with
      | ok v => rw [hsp] at h; simp at h; rw [← h.1]
      | error e => rw [hsp] at h; simp at h; rw [← h.1]

/-- UDP `SendMessage` never changes the last-received state. -/
theorem udp_send_preserves_last (M : Nat) (m : Msg) (u u' : UdpState) (stop : Bool)
    (h : udpExec M (Instruction.SendMessage m) u = some (u', stop)) :
    u'.last_received_packed_with_addr = u.last_received_packed_with_addr := by
  simp only [udpExec] at h
  cases hsp : send_packet_to_last_client u.last_received_packed_with_addr u.sends with
  | none => rw [hsp] at h; simp at h
  | some r =>
    obtain ⟨res, ss⟩ := r
    cases res with
    | ok a => rw [hsp] at h; simp at h; rw [← h.1]
    | error e => rw [hsp] at h; simp at h; rw [← h.1]

/-- UDP `SendMessageDependingOnLastReceivedMessage` never changes the
last-received state. -/
theorem udp_send_depending_preserves_last (M : Nat)
    (f : Option Msg → Option Msg) (u u' : UdpState) (stop : Bool)
    (h : udpExec M (Instruction.SendMessageDependingOnLastReceivedMessage f) u =
      some (u', stop)) :
    u'.last_received_packed_with_addr = u.last_received_packed_with_addr := by
  simp only [udpExec] at h
  cases hv : f (match u.last_received_packed_with_addr with
                | some (_, msg) => some msg
                | none => none) with
  | none => rw [hv] at h; simp at h; rw [← h.1]
  | some m =>
    rw [hv] at h
    cases hsp : send_packet_to_last_client u.last_received_packed_with_addr u.sends with
    | none => rw [hsp] at h; simp at h
    | some r =>
      obtain ⟨res, ss⟩ := r
      cases res with
      | ok a => rw [hsp] at h; simp at h; rw [← h.1]
      | error e => rw [hsp] at h; simp at h; rw [← h.1]

/-- Claim C7: on both engines, `SendMessageDependingOnLastReceivedMessage f`
applies `f` to (a copy of) the current last-received message — `none` when
nothing has been received, and the instruction's whole effect is a function
of that single value of `f` — sends nothing and changes nothing when `f`
returns no value, sends exactly the returned bytes when it returns some (for
UDP, to the last sender's address); and the last-received state is unchanged
by it, as by every other non-receive instruction: only `ReceiveMessage` and
`ReceiveMessageWithMaxSize` ever mutate that state. -/
theorem send_depending_behavior (B M : Nat) (s : TcpState) (u : UdpState) :
    (∀ f, f s.last_received_message = none →
      tcpExec B (Instruction.SendMessageDependingOnLastReceivedMessage f) s =
        some (s, false)) ∧
    (∀ f m ws, f s.last_received_message = some m →
      s.writes = Option.none :: ws →
      tcpExec B (Instruction.SendMessageDependingOnLastReceivedMessage f) s =
        some ({ s with writes := ws, sent := s.sent ++ [m] }, false)) ∧
    (∀ f g, f s.last_received_message = g s.last_received_message →
      tcpExec B (Instruction.SendMessageDependingOnLastReceivedMessage f) s =
        tcpExec B (Instruction.SendMessageDependingOnLastReceivedMessage g) s) ∧
    (∀ f s' stop,
      tcpExec B (Instruction.SendMessageDependingOnLastReceivedMessage f) s =
        some (s', stop) →
      s'.last_received_message = s.last_received_message) ∧
    (∀ m s' stop, tcpExec B (Instruction.SendMessage m) s = some (s', stop) →
      s'.last_received_message = s.last_received_message) ∧
    (∀ s' stop, tcpExec B Instruction.StopExchange s = some (s', stop) →
      s'.last_received_message = s.last_received_message) ∧
    (∀ f, f (u.last_received_packed_with_addr.map Prod.snd) = none →
      udpExec M (Instruction.SendMessageDependingOnLastReceivedMessage f) u =
        some (u, false)) ∧
    (∀ f m a dm ss, u.last_received_packed_with_addr = some (a, dm) →
      f (some dm) = some m → u.sends = Option.none :: ss →
      udpExec M (Instruction.SendMessageDependingOnLastReceivedMessage f) u =
        some ({ u with sends := ss, sent := u.sent ++ [(a, m)] }, false)) ∧
    (∀ f g, f (u.last_received_packed_with_addr.map Prod.snd) =
        g (u.last_received_packed_with_addr.map Prod.snd) →
      udpExec M (Instruction.SendMessageDependingOnLastReceivedMessage f) u =
        udpExec M (Instruction.SendMessageDependingOnLastReceivedMessage g) u) ∧
    (∀ f u' stop,
      udpExec M (Instruction.SendMessageDependingOnLastReceivedMessage f) u =
        some (u', stop) →
      u'.last_received_packed_with_addr = u.last_received_packed_with_addr) ∧
    (∀ m u' stop, udpExec M (Instruction.SendMessage m) u = some (u', stop) →
      u'.last_received_packed_with_addr = u.last_received_packed_with_addr) ∧
    (∀ u' stop, udpExec M Instruction.StopExchange u = some (u', stop) →
      u'.last_received_packed_with_addr = u.last_received_packed_with_addr) := by
  refine ⟨?_, ?_, ?_, ?_, ?_, ?_, ?_, ?_, ?_, ?_, ?_, ?_⟩
  · intro f hf
    simp [tcpExec, hf]
  · intro f m ws hf hw
    simp [tcpExec, hf, hw, send_packet]
  · intro f g hfg
    simp only [tcpExec]
    rw [hfg]
  · intro f s' stop h
    exact tcp_send_depending_preserves_last B f s s' stop h
  · intro m s' stop h
    exact tcp_send_preserves_last B m s s' stop h
  · intro s' stop h
    simp only [tcpExec, Option.some.injEq, Prod.mk.injEq] at h
    rw [← h.1]
  · intro f hf
    rw [← udp_last_message_view] at hf
    simp [udpExec, hf]
  · intro f m a dm ss hl hf hw
    simp [udpExec, hl, hf, hw, send_packet_to_last_client]
  · intro f g hfg
    rw [← udp_last_message_view] at hfg
    simp only [udpExec]
    rw [hfg]
  · intro f u' stop h
    exact udp_send_depending_preserves_last M f u u' stop h
  · intro m u' stop h
    exact udp_send_preserves_last M m u u' stop h
  · intro u' stop h
    simp only [udpExec, Option.some.injEq, Prod.mk.injEq] at h
    rw [← h.1]

/-- Claim C7 witness: an echoing closure on a TCP state whose last-received
message is `[1]` and whose next write succeeds sends exactly `[1]` and leaves
the last-received message in place. -/
theorem send_depending_behavior_witness :
    (fun o => o) (some [1]) = some ([1] : Msg) ∧
    tcpExec 4 (Instruction.SendMessageDependingOnLastReceivedMessage (fun o => o))
        { tcpInit [] [Option.none] with last_received_message := some [1] } =
      some ({ last_received_message := some [1], reads := [], writes := [],
              msgs := [], errs := [], sent := [[1]] }, false) := by
  have h := (send_depending_behavior 4 1
      { tcpInit [] [Option.none] with last_received_message := some [1] }
      (udpInit [] [])).2.1 (fun o => o) [1] [] rfl rfl
  exact ⟨rfl, by simpa [tcpInit] using h⟩

/-- A TCP batch containing `StopExchange` behaves identically whether or not
the instructions after the first `StopExchange` are present. -/
theorem tcpRunBatch_stop_eq (B : Nat) (b1 b2 : List Instruction) (s : TcpState) :
    tcpRunBatch B (b1 ++ Instruction.StopExchange :: b2) s =
      tcpRunBatch B (b1 ++ [Instruction.StopExchange]) s := by
  induction b1 generalizing s with
  | nil => rfl
  | cons i is ih =>
    simp only [List.cons_append, tcpRunBatch]
    cases h : tcpExec B i s with
    | none => rfl
    | some r =>
      obtain ⟨s', stop⟩ := r
      cases stop with
      | false => exact ih s'
      | true => rfl

/-- A TCP batch ending in `StopExchange` that completes always completes by
stopping. -/
theorem tcpRunBatch_stop_ends (B : Nat) (b1 b2 : List Instruction) (s : TcpState)
    (r : TcpState × Bool)
    (h : tcpRunBatch B (b1 ++ Instruction.StopExchange :: b2) s = some r) :
    r.2 = true := by
  induction b1 generalizing s with
  | nil =>
    simp only [List.nil_append, tcpRunBatch, tcpExec] at h
    simp only [Option.some.injEq] at h
    rw [← h]
  | cons i is ih =>
    simp only [List.cons_append, tcpRunBatch] at h
    cases h2 : tcpExec B i s with
    | none => rw [h2] at h; exact absurd h (by simp)
    | some rr =>
      obtain ⟨s', stop⟩ := rr
      cases stop with
      | true =>
        rw [h2] at h
        simp only [Option.some.injEq] at h
        rw [← h]
      | false =>
        rw [h2] at h
        exact ih s' h

/-- Once a TCP batch contains `StopExchange`, every batch submitted after it
is irrelevant to the whole run. -/
theorem tcpRunBatches_stop_eq (B : Nat) (pre : List (List Instruction))
    (b1 b2 : List Instruction) (post : List (List Instruction)) (s : TcpState) :
    tcpRunBatches B (pre ++ (b1 ++ Instruction.StopExchange :: b2) :: post) s =
      tcpRunBatches B (pre ++ [b1 ++ [Instruction.StopExchange]]) s := by
  induction pre generalizing s with
  | nil =>
    simp only [List.nil_append, tcpRunBatches]
    rw [tcpRunBatch_stop_eq]
    cases h : tcpRunBatch B (b1 ++ [Instruction.StopExchange]) s with
    | none => rfl
    | some r =>
      obtain ⟨s', stop⟩ := r
      cases stop with
      | true => rfl
      | false =>
        have hend := tcpRunBatch_stop_ends B b1 [] s (s', false) h
        simp at hend
  | cons b bs ih =>
    simp only [List.cons_append, tcpRunBatches]
    cases h : tcpRunBatch B b s with
    | none => rfl
    | some r =>
      obtain ⟨s', stop⟩ := r
      cases stop with
      | true => rfl
      | false => exact ih s'

/-- A UDP batch containing `StopExchange` behaves identically whether or not
the instructions after the first `StopExchange` are present. -/
theorem udpRunBatch_stop_eq (M : Nat) (b1 b2 : List Instruction) (u : UdpState) :
    udpRunBatch M (b1 ++ Instruction.StopExchange :: b2) u =
      udpRunBatch M (b1 ++ [Instruction.StopExchange]) u := by
  induction b1 generalizing u with
  | nil => rfl
  | cons i is ih =>
    simp only [List.cons_append, udpRunBatch]
    cases h : udpExec M i u with
    | none => rfl
    | some r =>
      obtain ⟨u', stop⟩ := r
      cases stop with
      | false => exact ih u'
      | true => rfl

/-- A UDP batch ending in `StopExchange` that completes always completes by
stopping. -/
theorem udpRunBatch_stop_ends (M : Nat) (b1 b2 : List Instruction) (u : UdpState)
    (r : UdpState × Bool)
    (h : udpRunBatch M (b1 ++ Instruction.StopExchange :: b2) u = some r) :
    r.2 = true := by
  induction b1 generalizing u with
  | nil =>
    simp only [List.nil_append, udpRunBatch, udpExec] at h
    simp only [Option.some.injEq] at h
    rw [← h]
  | cons i is ih =>
    simp only [List.cons_append, udpRunBatch] at h
    cases h2 : udpExec M i u with
    | none => rw [h2] at h; exact absurd h (by simp)
    | some rr =>
      obtain ⟨u', stop⟩ := rr
      cases stop with
      | true =>
        rw [h2] at h
        simp only [Option.some.injEq] at h
        rw [← h]
      | false =>
        rw [h2] at h
        exact ih u' h

/-- Once a UDP batch contains `StopExchange`, every batch submitted after it
is irrelevant to the whole run. -/
theorem udpRunBatches_stop_eq (M : Nat) (pre : List (List Instruction))
    (b1 b2 : List Instruction) (post : List (List Instruction)) (u : UdpState) :
    udpRunBatches M (pre ++ (b1 ++ Instruction.StopExchange :: b2) :: post) u =
      udpRunBatches M (pre ++ [b1 ++ [Instruction.StopExchange]]) u := by
  induction pre generalizing u with
  | nil =>
    simp only [List.nil_append, udpRunBatches]
    rw [udpRunBatch_stop_eq]
    cases h : udpRunBatch M (b1 ++ [Instruction.StopExchange]) u with
    | none => rfl
    | some r =>
      obtain ⟨u', stop⟩ := r
      cases stop with
      | true => rfl
      | false =>
        have hend := udpRunBatch_stop_ends M b1 [] u (u', false) h
        simp at hend
  | cons b bs ih =>
    simp only [List.cons_append, udpRunBatches]
    cases h : udpRunBatch M b u with
    | none => rfl
    | some r =>
      obtain ⟨u', stop⟩ := r
      cases stop with
      | true => rfl
      | false => exact ih u'

/-- Claim C1: on both engines, once a `StopExchange` instruction executes the
worker loop returns immediately and nothing after it is ever executed: the
whole run — its outputs (messages, errors, wire traffic), its final state and
its oracle consumption — is identical to the run truncated right after that
`StopExchange`, whatever instructions follow it in the same batch (`b2`) and
whatever batches are submitted afterwards (`post`). -/
theorem stop_exchange_short_circuits_run (B M : Nat)
    (pre : List (List Instruction)) (b1 b2 : List Instruction)
    (post : List (List Instruction))
    (reads : List ReadEvent) (writes : List WriteEvent)
    (preU : List (List Instruction)) (c1 c2 : List Instruction)
    (postU : List (List Instruction))
    (recvs : List RecvEvent) (sends : List SendEvent) :
    handle_connection B none
        (pre ++ (b1 ++ Instruction.StopExchange :: b2) :: post) reads writes =
      handle_connection B none
        (pre ++ [b1 ++ [Instruction.StopExchange]]) reads writes ∧
    handle_dgram_stream M none
        (preU ++ (c1 ++ Instruction.StopExchange :: c2) :: postU) recvs sends =
      handle_dgram_stream M none
        (preU ++ [c1 ++ [Instruction.StopExchange]]) recvs sends :=
  ⟨tcpRunBatches_stop_eq B pre b1 b2 post (tcpInit reads writes),
   udpRunBatches_stop_eq M preU c1 c2 postU (udpInit recvs sends)⟩

end SocketServerMocker
